import Mathlib

/-!
Verification of the ElliottWaveAnalyzer core against its specification.

The development shallow-embeds the Python sources:
  * `src/models/WaveTools.py`  — Fibonacci levels and the pairwise
    normalized diagonal-length metric;
  * `src/models/WaveRules.py`  — the slope helper of `LeadingDiagonal`,
    its trendline condition `w2_0`, and the diagonal-length conditions of
    the five practical variant rules;
  * `src/models/MonoWave.py`   — `MonoWaveUp.find_end` / `MonoWaveDown.find_end`
    (the extremum locator `models/functions.py` is not part of the sources
    and is modelled from the spec, see the marked definitions);
  * `src/main.py` / `src/wrapper.py` — `detect_zigzag` (both copies are
    line-for-line identical).

Python floats are modelled as `ℚ` wherever the code only adds, subtracts,
multiplies, divides and compares them; the final `math.sqrt` of the
diagonal-length metric is taken in `ℝ` via `Real.sqrt`.  A Python function
that can raise (`ValueError`, `ZeroDivisionError`) or return `(None, None)`
is modelled with `Option`.
-/

namespace ElliottWave

/-! ## WaveTools (src/models/WaveTools.py) -/

/-- `calculate_fibonacci_level` (WaveTools.py lines 4-19).
Mode `"low_to_high"` gives `low + (high-low)*fib_ratio`, mode
`"high_to_low"` gives `high - (high-low)*fib_ratio`; any other mode
raises `ValueError`, modelled as `none`. -/
def calculate_fibonacci_level (low high fib_ratio : ℚ) (mode : String) : Option ℚ :=
  if mode = "low_to_high" then some (low + (high - low) * fib_ratio)
  else if mode = "high_to_low" then some (high - (high - low) * fib_ratio)
  else none

/-- The projection of a wave object that `calculate_diagonals_length` reads
(duck-typed in Python): `duration = idx_end - idx_start` (an integer) and
the ordered pair `points` of the wave's two prices. -/
structure WtWave where
  duration : ℤ
  points : ℚ × ℚ
  deriving DecidableEq

/-- `calculate_diagonals_length` (WaveTools.py lines 104-140).
Widths are the durations divided by their maximum and scaled by
`x_to_y_ratio`; heights are the absolute price spans divided by their
maximum; each wave scores `sqrt(width² + height²)`.  When a maximum is
zero the corresponding Python division fails (`ZeroDivisionError` on ints,
NaN on numpy floats), modelled as `none`; the width division happens
first, so a zero `max_x` fails before `max_height` is looked at.  The
`print` calls and the unused `low_y`/`high_y`/`max_y` bindings of the
source are behaviourally inert and omitted. -/
noncomputable def calculate_diagonals_length (wave1 wave2 : WtWave) (x_to_y_ratio : ℚ) :
    Option (ℝ × ℝ) :=
  let width1 : ℚ := (wave1.duration : ℚ)
  let width2 : ℚ := (wave2.duration : ℚ)
  let height1 : ℚ := |wave1.points.2 - wave1.points.1|
  let height2 : ℚ := |wave2.points.2 - wave2.points.1|
  let max_x : ℚ := max width1 width2
  let max_height : ℚ := max height1 height2
  if max_x = 0 then none
  else if max_height = 0 then none
  else
    some (Real.sqrt (((width1 / max_x * x_to_y_ratio) ^ 2 + (height1 / max_height) ^ 2 : ℚ) : ℝ),
          Real.sqrt (((width2 / max_x * x_to_y_ratio) ^ 2 + (height2 / max_height) ^ 2 : ℚ) : ℝ))

/-- `wave1_longer_than_wave2` (WaveTools.py lines 143-146): compares the
two diagonal lengths computed with the module's **default** ratio
`x_to_y_ratio = 1.8` (the call site passes no ratio).  A raising
computation (degenerate input) is modelled as `False`. -/
noncomputable def wave1_longer_than_wave2 (wave1 wave2 : WtWave) : Prop :=
  match calculate_diagonals_length wave1 wave2 (9 / 5) with
  | none => False
  | some (l1, l2) => l1 > l2

/-! ## WaveRules (src/models/WaveRules.py) -/

/-- Default `x_y_ratio` of every `WaveRule` (WaveRules.py line 12). -/
def waveRuleDefault_x_y_ratio : ℚ := 17 / 10

/-- `is_wave1_diagonal_longer_than_wave2` as defined identically inside
`Impulse1/3/5WaveLongest`, `ExpandingDiagonal` and `ContractingDiagonal`:
compares the diagonal lengths computed with the rule's configured
`x_y_ratio`; with a truthy `fib_ratio` the second length is scaled by it
first (Python `if fib_ratio:` treats `None` and `0` alike). -/
noncomputable def is_wave1_diagonal_longer_than_wave2 (x_y_ratio : ℚ)
    (wave1 wave2 : WtWave) (fib_ratio : Option ℚ) : Prop :=
  match calculate_diagonals_length wave1 wave2 x_y_ratio with
  | none => False
  | some (l1, l2) =>
    match fib_ratio with
    | some f => if f = 0 then l1 > l2 else l1 > l2 * f
    | none => l1 > l2

/-- `is_wave1_diagonal_shorter_than_wave2`, the mirror comparison. -/
noncomputable def is_wave1_diagonal_shorter_than_wave2 (x_y_ratio : ℚ)
    (wave1 wave2 : WtWave) (fib_ratio : Option ℚ) : Prop :=
  match calculate_diagonals_length wave1 wave2 x_y_ratio with
  | none => False
  | some (l1, l2) =>
    match fib_ratio with
    | some f => if f = 0 then l1 < l2 else l1 < l2 * f
    | none => l1 < l2

/-- `Impulse3WaveLongest` condition `w3_2` (WaveRules.py lines 374-380),
for a rule configured with ratio `r`. -/
noncomputable def impulse3_w3_2 (r : ℚ) (wave1 wave3 : WtWave) : Prop :=
  is_wave1_diagonal_longer_than_wave2 r wave3 wave1 (some (81 / 50))

/-- `Impulse3WaveLongest` condition `w5_2` (WaveRules.py lines 409-416),
for a rule configured with ratio `r`: it calls
`WaveTools.wave1_longer_than_wave2`, which does not receive `r`. -/
noncomputable def impulse3_w5_2 (r : ℚ) (wave1 wave3 wave5 : WtWave) : Prop :=
  wave1_longer_than_wave2 wave3 wave1 ∧ wave1_longer_than_wave2 wave3 wave5

/-- `Impulse1WaveLongest` condition `w3_2` (WaveRules.py lines 481-488). -/
noncomputable def impulse1_w3_2 (r : ℚ) (wave1 wave3 : WtWave) : Prop :=
  is_wave1_diagonal_longer_than_wave2 r wave3 wave1 (some (3 / 10)) ∧
  is_wave1_diagonal_shorter_than_wave2 r wave3 wave1 (some (9 / 10))

/-- `Impulse1WaveLongest` condition `w4_2` (WaveRules.py lines 503-509). -/
noncomputable def impulse1_w4_2 (r : ℚ) (wave2 wave4 : WtWave) : Prop :=
  is_wave1_diagonal_shorter_than_wave2 r wave4 wave2 none

/-- `Impulse1WaveLongest` condition `w5_2` (WaveRules.py lines 518-525):
also built on `WaveTools.wave1_longer_than_wave2`, not on `r`. -/
noncomputable def impulse1_w5_2 (r : ℚ) (wave1 wave3 wave5 : WtWave) : Prop :=
  wave1_longer_than_wave2 wave1 wave3 ∧ wave1_longer_than_wave2 wave1 wave5

/-- `Impulse1WaveLongest` condition `w5_3` (WaveRules.py lines 527-536). -/
noncomputable def impulse1_w5_3 (r : ℚ) (wave3 wave5 : WtWave) : Prop :=
  is_wave1_diagonal_longer_than_wave2 r wave5 wave3 (some (1 / 10)) ∧
  is_wave1_diagonal_shorter_than_wave2 r wave5 wave3 (some (9 / 10))

/-- `Impulse5WaveLongest` condition `w3_2` (WaveRules.py lines 593-599). -/
noncomputable def impulse5_w3_2 (r : ℚ) (wave1 wave3 : WtWave) : Prop :=
  is_wave1_diagonal_longer_than_wave2 r wave3 wave1 (some (11 / 10))

/-- `Impulse5WaveLongest` condition `w5_2` (WaveRules.py lines 627-633). -/
noncomputable def impulse5_w5_2 (r : ℚ) (wave3 wave5 : WtWave) : Prop :=
  is_wave1_diagonal_longer_than_wave2 r wave5 wave3 (some (6 / 5))

/-- `Impulse5WaveLongest` condition `w5_3` (WaveRules.py lines 634-645). -/
noncomputable def impulse5_w5_3 (r : ℚ) (wave1 wave3 wave5 : WtWave) : Prop :=
  is_wave1_diagonal_longer_than_wave2 r wave5 wave3 none ∧
  is_wave1_diagonal_longer_than_wave2 r wave5 wave1 none

/-- `ExpandingDiagonal` condition `w3_2` (WaveRules.py lines 702-708). -/
noncomputable def expanding_w3_2 (r : ℚ) (wave1 wave3 : WtWave) : Prop :=
  is_wave1_diagonal_longer_than_wave2 r wave3 wave1 (some (6 / 5))

/-- `ExpandingDiagonal` condition `w5_2` (WaveRules.py lines 738-744). -/
noncomputable def expanding_w5_2 (r : ℚ) (wave3 wave5 : WtWave) : Prop :=
  is_wave1_diagonal_longer_than_wave2 r wave5 wave3 (some (11 / 10))

/-- `ContractingDiagonal` condition `w3_2` (WaveRules.py lines 801-808). -/
noncomputable def contracting_w3_2 (r : ℚ) (wave1 wave3 : WtWave) : Prop :=
  is_wave1_diagonal_shorter_than_wave2 r wave3 wave1 none

/-- `ContractingDiagonal` condition `w4_3` (WaveRules.py lines 823-829). -/
noncomputable def contracting_w4_3 (r : ℚ) (wave2 wave4 : WtWave) : Prop :=
  is_wave1_diagonal_shorter_than_wave2 r wave4 wave2 none

/-- `ContractingDiagonal` condition `w5_2` (WaveRules.py lines 838-844). -/
noncomputable def contracting_w5_2 (r : ℚ) (wave3 wave5 : WtWave) : Prop :=
  is_wave1_diagonal_shorter_than_wave2 r wave5 wave3 (some (9 / 10))

/-- Definition following the spec's words: the diagonal-length comparison
"`wave1` longer than `f` times `wave2`", with both lengths normalized
using the ratio `xy`.  The plain comparison is the factor-1 case. -/
noncomputable def diagonal_longer (xy f : ℚ) (wave1 wave2 : WtWave) : Prop :=
  ∃ l1 l2, calculate_diagonals_length wave1 wave2 xy = some (l1, l2) ∧ l1 > l2 * (f : ℝ)

/-- Definition following the spec's words: the mirror comparison
"`wave1` shorter than `f` times `wave2`" at normalization ratio `xy`. -/
noncomputable def diagonal_shorter (xy f : ℚ) (wave1 wave2 : WtWave) : Prop :=
  ∃ l1 l2, calculate_diagonals_length wave1 wave2 xy = some (l1, l2) ∧ l1 < l2 * (f : ℝ)

/-- The projection of a wave that the `LeadingDiagonal.w2_0` condition
reads: the end index and the two prices. -/
structure LDWave where
  idx_end : ℤ
  low : ℚ
  high : ℚ
  deriving DecidableEq

/-- `LeadingDiagonal.slope` (WaveRules.py lines 306-334): the slope
between two data points, with `0` returned when `delta_x` is zero. -/
def slope (x1 x2 : ℤ) (y1 y2 : ℚ) : ℚ :=
  let delta_x : ℤ := x2 - x1
  let delta_y : ℚ := y2 - y1
  if delta_x = 0 then 0 else delta_y / (delta_x : ℚ)

/-- `LeadingDiagonal` condition `w2_0` (WaveRules.py lines 217-226): the
slope of the 2-4 trendline must exceed the slope of the 1-3 trendline,
and the 1-3 slope must be positive. -/
def leading_diagonal_w2_0 (wave1 wave2 wave3 wave4 : LDWave) : Prop :=
  slope wave2.idx_end wave4.idx_end wave2.low wave4.low >
    slope wave1.idx_end wave3.idx_end wave1.high wave3.high ∧
  slope wave1.idx_end wave3.idx_end wave1.high wave3.high > 0

/-! ## MonoWave (src/models/MonoWave.py)

`MonoWave.find_end` relies on `hi`, `lo`, `next_hi`, `next_lo` from
`models/functions.py`, which is not among the sources; those four are
modelled from the spec (§4.2 "Extrema locator").  The fuel argument of
the scanners is a termination device only: the scan index grows by one
per step and the scan stops at the end of the series, so a fuel of
`length + 1` is never exhausted first. -/

/-- Scanner for `hi`: from index `i`, return the first index whose
successor breaks the (weak) ascent of `highs`, paired with its value. -/
def hi_scan (highs : List ℚ) : ℕ → ℕ → Option (ℚ × ℕ)
  | 0, _ => none
  | fuel + 1, i =>
    if i + 1 < highs.length then
      if highs.getD (i + 1) 0 < highs.getD i 0 then some (highs.getD i 0, i)
      else hi_scan highs fuel (i + 1)
    else none

/-- Modelled from the spec (§4.2, `models/functions.py` missing): `hi`
scans forward from `idx_start` and returns the first local maximum of
`highs` (simple adjacent comparison) with its index; `none` if the series
ends before a downward reversal occurs. -/
def hi (lows highs : List ℚ) (idx_start : ℕ) : Option (ℚ × ℕ) :=
  hi_scan highs (highs.length + 1) idx_start

/-- Scanner for `lo`: mirror of `hi_scan` on `lows`. -/
def lo_scan (lows : List ℚ) : ℕ → ℕ → Option (ℚ × ℕ)
  | 0, _ => none
  | fuel + 1, i =>
    if i + 1 < lows.length then
      if lows.getD i 0 < lows.getD (i + 1) 0 then some (lows.getD i 0, i)
      else lo_scan lows fuel (i + 1)
    else none

/-- Modelled from the spec (§4.2, `models/functions.py` missing): `lo` is
the mirror of `hi`, returning the first local minimum of `lows` at or
after `idx_start`. -/
def lo (lows highs : List ℚ) (idx_start : ℕ) : Option (ℚ × ℕ) :=
  lo_scan lows (lows.length + 1) idx_start

/-- Scanner for `next_hi`: from index `j`, the first value of `highs`
strictly above `val`, with its index. -/
def next_hi_scan (highs : List ℚ) (val : ℚ) : ℕ → ℕ → Option (ℚ × ℕ)
  | 0, _ => none
  | fuel + 1, j =>
    if j < highs.length then
      if val < highs.getD j 0 then some (highs.getD j 0, j)
      else next_hi_scan highs val fuel (j + 1)
    else none

/-- Modelled from the spec (§4.2, `models/functions.py` missing):
`next_hi` continues scanning past `high_idx` for a value strictly more
extreme than `high`; `none` at series end. -/
def next_hi (lows highs : List ℚ) (high_idx : ℕ) (high : ℚ) : Option (ℚ × ℕ) :=
  next_hi_scan highs high (highs.length + 1) (high_idx + 1)

/-- Scanner for `next_lo`: mirror of `next_hi_scan` on `lows`. -/
def next_lo_scan (lows : List ℚ) (val : ℚ) : ℕ → ℕ → Option (ℚ × ℕ)
  | 0, _ => none
  | fuel + 1, j =>
    if j < lows.length then
      if lows.getD j 0 < val then some (lows.getD j 0, j)
      else next_lo_scan lows val fuel (j + 1)
    else none

/-- Modelled from the spec (§4.2, `models/functions.py` missing):
`next_lo`, the mirror of `next_hi`. -/
def next_lo (lows highs : List ℚ) (low_idx : ℕ) (low : ℚ) : Option (ℚ × ℕ) :=
  next_lo_scan lows low (lows.length + 1) (low_idx + 1)

/-- Truthiness of `np.min(lows[a:b] < c)` for a nonempty slice: the
minimum of the boolean mask is `True` exactly when **all** entries of the
slice are below `c`.  This is the test `MonoWaveUp.find_end` actually
performs (MonoWave.py line 220). -/
def allBelow (lows : List ℚ) (a b : ℕ) (c : ℚ) : Bool :=
  (List.range' a (b - a)).all fun k => decide (lows.getD k 0 < c)

/-- `np.min(lows[a:b]) < c` for a nonempty slice: **some** entry of the
slice is below `c`.  This is the check the spec describes. -/
def anyBelow (lows : List ℚ) (a b : ℕ) (c : ℚ) : Bool :=
  (List.range' a (b - a)).any fun k => decide (lows.getD k 0 < c)

/-- `np.max(highs[a:b]) > c` for a nonempty slice: some entry of the
slice is above `c` (MonoWave.py line 313). -/
def anyAbove (highs : List ℚ) (a b : ℕ) (c : ℚ) : Bool :=
  (List.range' a (b - a)).any fun k => decide (c < highs.getD k 0)

/-- One skip iteration of `MonoWaveUp.find_end` (MonoWave.py lines
210-221), acting on the current `(high, high_idx)` pair.  Note the
adoption branch aborts only when `allBelow` holds — the faithful
rendering of `if np.min(lows_arr[idx_start:act_high_idx] < low_at_start)`. -/
def up_step (lows highs : List ℚ) (idx_start : ℕ) (low_at_start : ℚ) (s : ℚ × ℕ) :
    Option (ℚ × ℕ) :=
  match next_hi lows highs s.2 s.1 with
  | none => none
  | some (act_high, act_high_idx) =>
    if s.1 < act_high then
      if allBelow lows idx_start act_high_idx low_at_start then none
      else some (act_high, act_high_idx)
    else some s

/-- Runs `f` up to `n` times, stopping at the first `none`. -/
def iterateStep {α : Type} (f : α → Option α) : ℕ → α → Option α
  | 0, s => some s
  | n + 1, s =>
    match f s with
    | none => none
    | some s' => iterateStep f n s'

/-- `MonoWaveUp.find_end` (MonoWave.py lines 197-223): the first local
high at or after `idx_start`, then `skip_n` skip iterations.  `none`
models the `(None, None)` result. -/
def find_end_up (lows highs : List ℚ) (idx_start skip_n : ℕ) : Option (ℚ × ℕ) :=
  match hi lows highs idx_start with
  | none => none
  | some s0 => iterateStep (up_step lows highs idx_start (lows.getD idx_start 0)) skip_n s0

/-- Modelled from the spec (§4.3 step 3): the up-wave skip iteration with
the undercut check as specified — the wave fails when **any** low in
`[idx_start, act_high_idx)` is below the original low. -/
def up_step_intended (lows highs : List ℚ) (idx_start : ℕ) (low_at_start : ℚ) (s : ℚ × ℕ) :
    Option (ℚ × ℕ) :=
  match next_hi lows highs s.2 s.1 with
  | none => none
  | some (act_high, act_high_idx) =>
    if s.1 < act_high then
      if anyBelow lows idx_start act_high_idx low_at_start then none
      else some (act_high, act_high_idx)
    else some s

/-- Modelled from the spec (§4.3): `find_end` of the up-wave with the
intended undercut check. -/
def find_end_up_intended (lows highs : List ℚ) (idx_start skip_n : ℕ) : Option (ℚ × ℕ) :=
  match hi lows highs idx_start with
  | none => none
  | some s0 =>
    iterateStep (up_step_intended lows highs idx_start (lows.getD idx_start 0)) skip_n s0

/-- One skip iteration of `MonoWaveDown.find_end` (MonoWave.py lines
305-314); here the overshoot check is written correctly in the source
(`np.max(highs_arr[idx_start:act_low_idx]) > high_at_start`). -/
def down_step (lows highs : List ℚ) (idx_start : ℕ) (high_at_start : ℚ) (s : ℚ × ℕ) :
    Option (ℚ × ℕ) :=
  match next_lo lows highs s.2 s.1 with
  | none => none
  | some (act_low, act_low_idx) =>
    if act_low < s.1 then
      if anyAbove highs idx_start act_low_idx high_at_start then none
      else some (act_low, act_low_idx)
    else some s

/-- `MonoWaveDown.find_end` (MonoWave.py lines 293-322). -/
def find_end_down (lows highs : List ℚ) (idx_start skip_n : ℕ) : Option (ℚ × ℕ) :=
  match lo lows highs idx_start with
  | none => none
  | some s0 => iterateStep (down_step lows highs idx_start (highs.getD idx_start 0)) skip_n s0

/-! ## detect_zigzag (src/main.py lines 17-46 = src/wrapper.py lines 9-38) -/

/-- One committed zigzag pivot: the bar index, the committed price, and
which column it came from (`isHigh = true` for `df["High"]`).  The tag
records the branch that produced the point; the Python tuple stores only
`(index, price)`. -/
structure ZPoint where
  idx : ℕ
  price : ℚ
  isHigh : Bool
  deriving DecidableEq

/-- The loop state of `detect_zigzag`: the pivot list (stored here most
recent first, so Python `append` is `cons` and `pop` is `tail`), the last
pivot bar index, and the trend flag. -/
structure ZState where
  points : List ZPoint
  last_pivot : ℕ
  up_trend : Bool
  deriving DecidableEq

/-- One iteration of the `detect_zigzag` loop body at bar `i`. -/
def zig_step (lows highs : ℕ → ℚ) (threshold : ℚ) (s : ZState) (i : ℕ) : ZState :=
  if s.up_trend then
    if lows i ≤ lows s.last_pivot then
      ⟨⟨i, lows i, false⟩ :: s.points.tail, i, true⟩
    else if threshold ≤ highs i / lows s.last_pivot - 1 then
      ⟨⟨i, highs i, true⟩ :: s.points, i, false⟩
    else s
  else
    if highs s.last_pivot ≤ highs i then
      ⟨⟨i, highs i, true⟩ :: s.points.tail, i, false⟩
    else if threshold ≤ highs s.last_pivot / lows i - 1 then
      ⟨⟨i, lows i, false⟩ :: s.points, i, true⟩
    else s

/-- `detect_zigzag` (main.py lines 17-46, wrapper.py lines 9-38): fold the
loop body over bars `1, …, n-1` starting from an empty pivot list,
`last_pivot = 0`, up state; the result is returned in chronological
order. -/
def detect_zigzag (lows highs : ℕ → ℚ) (n : ℕ) (threshold : ℚ) : List ZPoint :=
  ((List.range' 1 (n - 1)).foldl (zig_step lows highs threshold) ⟨[], 0, true⟩).points.reverse

/-- Adjacent-pivot correctness, symmetric in its two arguments: the two
pivots come from opposite columns and the high one exceeds the low one by
at least the threshold move. -/
def pairOK (threshold : ℚ) (p q : ZPoint) : Prop :=
  (p.isHigh = true ∧ q.isHigh = false ∧ threshold ≤ p.price / q.price - 1) ∨
  (p.isHigh = false ∧ q.isHigh = true ∧ threshold ≤ q.price / p.price - 1)

/-- The adjacency property exactly as the claim words it, on the
chronological list: consecutive pivots alternate and the ratio of the
committing (later) extreme over the opposite (earlier) pivot, minus one,
reaches the threshold. -/
def pairClaimed (threshold : ℚ) (p q : ZPoint) : Prop :=
  p.isHigh ≠ q.isHigh ∧ threshold ≤ q.price / p.price - 1

/-- The loop invariant of `detect_zigzag`: adjacent stored pivots satisfy
`pairOK`, all stored prices are positive, and the head of the stored list
is the pivot the state variables describe. -/
def ZInv (lows highs : ℕ → ℚ) (threshold : ℚ) (s : ZState) : Prop :=
  List.Chain' (pairOK threshold) s.points ∧
  (∀ p ∈ s.points, 0 < p.price) ∧
  (s.up_trend = true →
    s.points = [] ∨ s.points.head? = some ⟨s.last_pivot, lows s.last_pivot, false⟩) ∧
  (s.up_trend = false →
    s.points.head? = some ⟨s.last_pivot, highs s.last_pivot, true⟩)

/-! ## Theorems -/

/-- C8: for all `low`, `high` and every ratio `r`, the `"low_to_high"`
and `"high_to_low"` Fibonacci levels both resolve and sum to
`low + high`. -/
theorem fibonacci_round_trip (low high r : ℚ) :
    ∃ a b, calculate_fibonacci_level low high r "low_to_high" = some a ∧
      calculate_fibonacci_level low high r "high_to_low" = some b ∧
      a + b = low + high := by
  refine ⟨low + (high - low) * r, high - (high - low) * r, ?_, ?_, by ring⟩
  · rfl
  · rfl

/-- C9: `calculate_fibonacci_level` returns normally exactly for the two
modes `"low_to_high"` and `"high_to_low"`, and raises (`none`) for every
other mode string. -/
theorem fibonacci_mode_domain (low high r : ℚ) (mode : String) :
    (calculate_fibonacci_level low high r mode).isSome = true ↔
      mode = "low_to_high" ∨ mode = "high_to_low" := by
  unfold calculate_fibonacci_level
  by_cases h1 : mode = "low_to_high" <;> by_cases h2 : mode = "high_to_low" <;>
    simp [h1, h2]

/-- C6: the `LeadingDiagonal.w2_0` condition holds exactly when the 2-4
trendline slope strictly exceeds the 1-3 trendline slope and both slopes
are strictly positive. -/
theorem leading_diagonal_w2_0_characterization (wave1 wave2 wave3 wave4 : LDWave) :
    leading_diagonal_w2_0 wave1 wave2 wave3 wave4 ↔
      (slope wave2.idx_end wave4.idx_end wave2.low wave4.low >
         slope wave1.idx_end wave3.idx_end wave1.high wave3.high ∧
       0 < slope wave2.idx_end wave4.idx_end wave2.low wave4.low ∧
       0 < slope wave1.idx_end wave3.idx_end wave1.high wave3.high) := by
  unfold leading_diagonal_w2_0
  constructor
  · rintro ⟨h1, h2⟩
    exact ⟨h1, lt_trans h2 h1, h2⟩
  · rintro ⟨h1, _, h3⟩
    exact ⟨h1, h3⟩

/-- C10: `slope` is total — on coincident x-coordinates it returns `0`
instead of dividing by zero, and otherwise it is the usual difference
quotient; hence every evaluation of the trendline condition is defined. -/
theorem slope_total (x1 x2 : ℤ) (y1 y2 : ℚ) :
    (x2 = x1 → slope x1 x2 y1 y2 = 0) ∧
    (x2 ≠ x1 → slope x1 x2 y1 y2 = (y2 - y1) / ((x2 : ℚ) - (x1 : ℚ))) := by
  unfold slope
  constructor
  · intro h
    rw [if_pos (by omega)]
  · intro h
    rw [if_neg (by omega)]
    push_cast
    ring

/-- Closed instance of `slope_total`: both branches evaluated at concrete
points. -/
theorem slope_total_witness : slope 3 3 1 5 = 0 ∧ slope 0 2 0 4 = 2 := by
  constructor
  · exact (slope_total 3 3 1 5).1 rfl
  · rw [(slope_total 0 2 0 4).2 (by decide)]
    norm_num

/-- Unrolling `iterateStep` at the near end. -/
theorem iterateStep_front {α : Type} (f : α → Option α) (n : ℕ) (s : α) :
    iterateStep f (n + 1) s = (f s).bind (iterateStep f n) := by
  cases h : f s <;> simp [iterateStep, h]

/-- Unrolling `iterateStep` from the far end: `n + 1` iterations are `n`
iterations followed by one more step. -/
theorem iterateStep_succ {α : Type} (f : α → Option α) (n : ℕ) (s : α) :
    iterateStep f (n + 1) s = (iterateStep f n s).bind f := by
  induction n generalizing s with
  | zero =>
    rw [iterateStep_front]
    cases h : f s <;> simp [iterateStep, h]
  | succ n ih =>
    rw [iterateStep_front, iterateStep_front f n s]
    cases h : f s with
    | none => simp
    | some s' => simp [ih]

/-- A successful up-wave skip iteration never lowers the current high. -/
theorem up_step_mono (lows highs : List ℚ) (a : ℕ) (c : ℚ) (s s' : ℚ × ℕ)
    (h : up_step lows highs a c s = some s') : s.1 ≤ s'.1 := by
  unfold up_step at h
  split at h
  · exact absurd h (by simp)
  · rename_i ah ai heq
    split at h
    · split at h
      · exact absurd h (by simp)
      · injection h with h
        subst h
        rename_i hlt _
        exact le_of_lt hlt
    · injection h with h
      subst h
      exact le_rfl

/-- A successful down-wave skip iteration never raises the current low. -/
theorem down_step_mono (lows highs : List ℚ) (a : ℕ) (c : ℚ) (s s' : ℚ × ℕ)
    (h : down_step lows highs a c s = some s') : s'.1 ≤ s.1 := by
  unfold down_step at h
  split at h
  · exact absurd h (by simp)
  · rename_i al ai heq
    split at h
    · split at h
      · exact absurd h (by simp)
      · injection h with h
        subst h
        rename_i hlt _
        exact le_of_lt hlt
    · injection h with h
      subst h
      exact le_rfl

/-- C2: skip monotonicity.  For a fixed series and start index, if the
up-wave `find_end` resolves at skip counts `k` and `k + 1`, the high at
`k + 1` is at least the high at `k`; symmetrically, the down-wave low at
`k + 1` is at most the low at `k`. -/
theorem find_end_skip_monotone :
    (∀ (lows highs : List ℚ) (i k : ℕ) (a b : ℚ × ℕ),
       find_end_up lows highs i k = some a →
       find_end_up lows highs i (k + 1) = some b → a.1 ≤ b.1) ∧
    (∀ (lows highs : List ℚ) (i k : ℕ) (a b : ℚ × ℕ),
       find_end_down lows highs i k = some a →
       find_end_down lows highs i (k + 1) = some b → b.1 ≤ a.1) := by
  constructor
  · intro lows highs i k a b ha hb
    unfold find_end_up at ha hb
    cases hhi : hi lows highs i with
    | none => rw [hhi] at ha; simp at ha
    | some s0 =>
      rw [hhi] at ha hb
      dsimp only at ha hb
      rw [iterateStep_succ, ha, Option.some_bind] at hb
      exact up_step_mono lows highs i (lows.getD i 0) a b hb
  · intro lows highs i k a b ha hb
    unfold find_end_down at ha hb
    cases hlo : lo lows highs i with
    | none => rw [hlo] at ha; simp at ha
    | some s0 =>
      rw [hlo] at ha hb
      dsimp only at ha hb
      rw [iterateStep_succ, ha, Option.some_bind] at hb
      exact down_step_mono lows highs i (highs.getD i 0) a b hb

/-- Closed instance of `find_end_skip_monotone` on a concrete series:
skips 0 and 1 both resolve, and the high does not decrease. -/
theorem find_end_skip_monotone_witness :
    find_end_up [10, 9, 11] [12, 11, 15] 0 0 = some (12, 0) ∧
    find_end_up [10, 9, 11] [12, 11, 15] 0 1 = some (15, 2) ∧
    ((12, 0) : ℚ × ℕ).1 ≤ ((15, 2) : ℚ × ℕ).1 := by
  have h1 : find_end_up [10, 9, 11] [12, 11, 15] 0 0 = some (12, 0) := by decide
  have h2 : find_end_up [10, 9, 11] [12, 11, 15] 0 1 = some (15, 2) := by decide
  exact ⟨h1, h2,
    find_end_skip_monotone.1 [10, 9, 11] [12, 11, 15] 0 0 (12, 0) (15, 2) h1 h2⟩

/-- C1: the undercut check of `MonoWaveUp.find_end` never fires.  On the
series `lows = [10, 5, 9, 9]`, `highs = [12, 6, 15, 7]` with
`idx_start = 0`, `skip = 1`, the skip iteration adopts the higher extreme
at index 2 although `lows[1] = 5` undercuts the original low `10`; the
code still resolves to `(15, 2)` because it tests
`np.min(lows[0:2] < 10)` — the minimum of a boolean mask that contains
`lows[0] < 10 = False` — instead of `np.min(lows[0:2]) < 10`.  The
spec-intended variant of the check fails the wave, as the claim states. -/
theorem find_end_up_undercut_check_dead :
    find_end_up [10, 5, 9, 9] [12, 6, 15, 7] 0 1 = some (15, 2) ∧
    ([10, 5, 9, 9] : List ℚ).getD 1 0 < ([10, 5, 9, 9] : List ℚ).getD 0 0 ∧
    find_end_up_intended [10, 5, 9, 9] [12, 6, 15, 7] 0 1 = none := by
  refine ⟨by decide, by decide, by decide⟩

/-- C3: when both pairwise maxima are nonzero, each wave's diagonal
length is `sqrt((duration / max duration · ratio)² + (span / max span)²)`,
the span being the absolute difference of the wave's two price points. -/
theorem calculate_diagonals_length_formula (wave1 wave2 : WtWave) (r : ℚ)
    (hdur : max wave1.duration wave2.duration ≠ 0)
    (hspan : max |wave1.points.2 - wave1.points.1| |wave2.points.2 - wave2.points.1| ≠ 0) :
    calculate_diagonals_length wave1 wave2 r =
      some
        (Real.sqrt
          (((wave1.duration : ℝ) / max (wave1.duration : ℝ) (wave2.duration : ℝ) * (r : ℝ)) ^ 2 +
            (((|wave1.points.2 - wave1.points.1| : ℚ) : ℝ) /
              max ((|wave1.points.2 - wave1.points.1| : ℚ) : ℝ)
                  ((|wave2.points.2 - wave2.points.1| : ℚ) : ℝ)) ^ 2),
         Real.sqrt
          (((wave2.duration : ℝ) / max (wave1.duration : ℝ) (wave2.duration : ℝ) * (r : ℝ)) ^ 2 +
            (((|wave2.points.2 - wave2.points.1| : ℚ) : ℝ) /
              max ((|wave1.points.2 - wave1.points.1| : ℚ) : ℝ)
                  ((|wave2.points.2 - wave2.points.1| : ℚ) : ℝ)) ^ 2)) := by
  have h1 : max (wave1.duration : ℚ) (wave2.duration : ℚ) ≠ 0 := by
    rw [← Int.cast_max]
    exact_mod_cast hdur
  unfold calculate_diagonals_length
  rw [if_neg h1, if_neg hspan]
  simp only [Option.some.injEq, Prod.mk.injEq]
  constructor <;>
  · congr 1
    push_cast [Rat.cast_max]
    ring

/-- Closed instance of `calculate_diagonals_length_formula`: on waves of
durations 2 and 4 with spans 3 and 4, ratio 1, the pair of scores is
`(sqrt (13/16), sqrt 2)`. -/
theorem calculate_diagonals_length_formula_witness :
    max (2 : ℤ) 4 ≠ 0 ∧
    max |(3 : ℚ) - 0| |(5 : ℚ) - 1| ≠ 0 ∧
    calculate_diagonals_length ⟨2, (0, 3)⟩ ⟨4, (1, 5)⟩ 1 =
      some (Real.sqrt (13 / 16), Real.sqrt 2) := by
  refine ⟨by decide, by norm_num, ?_⟩
  have h := calculate_diagonals_length_formula ⟨2, (0, 3)⟩ ⟨4, (1, 5)⟩ 1
    (by decide) (by norm_num)
  rw [h]
  norm_num

/-- C5 counterexample: on two fully degenerate waves (durations 0, spans
0) the computation does not complete with score 0 — the division by the
zero maximum fails, modelled as `none`. -/
theorem degenerate_diagonal_counterexample :
    calculate_diagonals_length ⟨0, (5, 5)⟩ ⟨0, (7, 7)⟩ (9 / 5) = none ∧
    calculate_diagonals_length ⟨0, (5, 5)⟩ ⟨0, (7, 7)⟩ (9 / 5) ≠ some (0, 0) := by
  have h : calculate_diagonals_length ⟨0, (5, 5)⟩ ⟨0, (7, 7)⟩ (9 / 5) = none := by
    unfold calculate_diagonals_length
    norm_num
  exact ⟨h, by rw [h]; simp⟩

/-- C5 amended: whenever both durations and both spans are zero, the
pairwise diagonal-length computation fails on the zero-divisor division
(`ZeroDivisionError` on Python ints, NaN on numpy floats) instead of
scoring the degenerate waves 0. -/
theorem degenerate_diagonal_fails (wave1 wave2 : WtWave) (r : ℚ)
    (h1 : wave1.duration = 0) (h2 : wave2.duration = 0)
    (h3 : |wave1.points.2 - wave1.points.1| = 0)
    (h4 : |wave2.points.2 - wave2.points.1| = 0) :
    calculate_diagonals_length wave1 wave2 r = none := by
  unfold calculate_diagonals_length
  rw [h1, h2]
  norm_num

/-- Closed instance of `degenerate_diagonal_fails` at concrete degenerate
waves. -/
theorem degenerate_diagonal_fails_witness :
    ((⟨0, (4, 4)⟩ : WtWave).duration = 0) ∧
    ((⟨0, (6, 6)⟩ : WtWave).duration = 0) ∧
    (|((⟨0, (4, 4)⟩ : WtWave).points.2 - (⟨0, (4, 4)⟩ : WtWave).points.1)| = 0) ∧
    (|((⟨0, (6, 6)⟩ : WtWave).points.2 - (⟨0, (6, 6)⟩ : WtWave).points.1)| = 0) ∧
    calculate_diagonals_length ⟨0, (4, 4)⟩ ⟨0, (6, 6)⟩ 1 = none := by
  refine ⟨rfl, rfl, by norm_num, by norm_num, ?_⟩
  exact degenerate_diagonal_fails ⟨0, (4, 4)⟩ ⟨0, (6, 6)⟩ 1 rfl rfl (by norm_num) (by norm_num)

/-- The rule method applied to a truthy Fibonacci factor is the spec-side
factor comparison. -/
theorem is_longer_some_iff (xy f : ℚ) (w1 w2 : WtWave) (hf : f ≠ 0) :
    is_wave1_diagonal_longer_than_wave2 xy w1 w2 (some f) ↔ diagonal_longer xy f w1 w2 := by
  unfold is_wave1_diagonal_longer_than_wave2 diagonal_longer
  cases h : calculate_diagonals_length w1 w2 xy with
  | none => simp [h]
  | some p =>
    obtain ⟨l1, l2⟩ := p
    simp [h, hf]
    constructor
    · intro hx
      exact ⟨l1, l2, ⟨rfl, rfl⟩, hx⟩
    · rintro ⟨a, b, ⟨rfl, rfl⟩, hx⟩
      exact hx

/-- The rule method applied to no Fibonacci factor is the factor-1
comparison. -/
theorem is_longer_none_iff (xy : ℚ) (w1 w2 : WtWave) :
    is_wave1_diagonal_longer_than_wave2 xy w1 w2 none ↔ diagonal_longer xy 1 w1 w2 := by
  unfold is_wave1_diagonal_longer_than_wave2 diagonal_longer
  cases h : calculate_diagonals_length w1 w2 xy with
  | none => simp [h]
  | some p =>
    obtain ⟨l1, l2⟩ := p
    simp [h]
    constructor
    · intro hx
      exact ⟨l1, l2, ⟨rfl, rfl⟩, hx⟩
    · rintro ⟨a, b, ⟨rfl, rfl⟩, hx⟩
      exact hx

/-- Mirror of `is_longer_some_iff`. -/
theorem is_shorter_some_iff (xy f : ℚ) (w1 w2 : WtWave) (hf : f ≠ 0) :
    is_wave1_diagonal_shorter_than_wave2 xy w1 w2 (some f) ↔ diagonal_shorter xy f w1 w2 := by
  unfold is_wave1_diagonal_shorter_than_wave2 diagonal_shorter
  cases h : calculate_diagonals_length w1 w2 xy with
  | none => simp [h]
  | some p =>
    obtain ⟨l1, l2⟩ := p
    simp [h, hf]
    constructor
    · intro hx
      exact ⟨l1, l2, ⟨rfl, rfl⟩, hx⟩
    · rintro ⟨a, b, ⟨rfl, rfl⟩, hx⟩
      exact hx

/-- Mirror of `is_longer_none_iff`. -/
theorem is_shorter_none_iff (xy : ℚ) (w1 w2 : WtWave) :
    is_wave1_diagonal_shorter_than_wave2 xy w1 w2 none ↔ diagonal_shorter xy 1 w1 w2 := by
  unfold is_wave1_diagonal_shorter_than_wave2 diagonal_shorter
  cases h : calculate_diagonals_length w1 w2 xy with
  | none => simp [h]
  | some p =>
    obtain ⟨l1, l2⟩ := p
    simp [h]
    constructor
    · intro hx
      exact ⟨l1, l2, ⟨rfl, rfl⟩, hx⟩
    · rintro ⟨a, b, ⟨rfl, rfl⟩, hx⟩
      exact hx

/-- `WaveTools.wave1_longer_than_wave2` is the plain comparison at the
module default ratio 1.8 — no other ratio ever reaches it. -/
theorem wave1_longer_than_wave2_iff (w1 w2 : WtWave) :
    wave1_longer_than_wave2 w1 w2 ↔ diagonal_longer (9 / 5) 1 w1 w2 := by
  unfold wave1_longer_than_wave2 diagonal_longer
  cases h : calculate_diagonals_length w1 w2 (9 / 5) with
  | none => simp [h]
  | some p =>
    obtain ⟨l1, l2⟩ := p
    simp [h]
    constructor
    · intro hx
      exact ⟨l1, l2, ⟨rfl, rfl⟩, hx⟩
    · rintro ⟨a, b, ⟨rfl, rfl⟩, hx⟩
      exact hx

/-- C4 amended: in the five practical variant rules, every condition
built on `is_wave1_diagonal_longer/shorter_than_wave2` compares diagonal
lengths normalized with the rule's configured `x_y_ratio`, but the `w5_2`
conditions of `Impulse3WaveLongest` and `Impulse1WaveLongest` go through
`WaveTools.wave1_longer_than_wave2` and therefore always use the
`WaveTools` default ratio 1.8, independently of the configured ratio. -/
theorem variant_rules_ratio_usage (r r' : ℚ) (w1 w2 w3 w4 w5 : WtWave) :
    (impulse3_w3_2 r w1 w3 ↔ diagonal_longer r (81 / 50) w3 w1) ∧
    (impulse3_w5_2 r w1 w3 w5 ↔ impulse3_w5_2 r' w1 w3 w5) ∧
    (impulse3_w5_2 r w1 w3 w5 ↔
       diagonal_longer (9 / 5) 1 w3 w1 ∧ diagonal_longer (9 / 5) 1 w3 w5) ∧
    (impulse1_w3_2 r w1 w3 ↔
       diagonal_longer r (3 / 10) w3 w1 ∧ diagonal_shorter r (9 / 10) w3 w1) ∧
    (impulse1_w4_2 r w2 w4 ↔ diagonal_shorter r 1 w4 w2) ∧
    (impulse1_w5_2 r w1 w3 w5 ↔ impulse1_w5_2 r' w1 w3 w5) ∧
    (impulse1_w5_2 r w1 w3 w5 ↔
       diagonal_longer (9 / 5) 1 w1 w3 ∧ diagonal_longer (9 / 5) 1 w1 w5) ∧
    (impulse1_w5_3 r w3 w5 ↔
       diagonal_longer r (1 / 10) w5 w3 ∧ diagonal_shorter r (9 / 10) w5 w3) ∧
    (impulse5_w3_2 r w1 w3 ↔ diagonal_longer r (11 / 10) w3 w1) ∧
    (impulse5_w5_2 r w3 w5 ↔ diagonal_longer r (6 / 5) w5 w3) ∧
    (impulse5_w5_3 r w1 w3 w5 ↔
       diagonal_longer r 1 w5 w3 ∧ diagonal_longer r 1 w5 w1) ∧
    (expanding_w3_2 r w1 w3 ↔ diagonal_longer r (6 / 5) w3 w1) ∧
    (expanding_w5_2 r w3 w5 ↔ diagonal_longer r (11 / 10) w5 w3) ∧
    (contracting_w3_2 r w1 w3 ↔ diagonal_shorter r 1 w3 w1) ∧
    (contracting_w4_3 r w2 w4 ↔ diagonal_shorter r 1 w4 w2) ∧
    (contracting_w5_2 r w3 w5 ↔ diagonal_shorter r (9 / 10) w5 w3) :=
  ⟨is_longer_some_iff r (81 / 50) w3 w1 (by norm_num),
   Iff.rfl,
   and_congr (wave1_longer_than_wave2_iff w3 w1) (wave1_longer_than_wave2_iff w3 w5),
   and_congr (is_longer_some_iff r (3 / 10) w3 w1 (by norm_num))
     (is_shorter_some_iff r (9 / 10) w3 w1 (by norm_num)),
   is_shorter_none_iff r w4 w2,
   Iff.rfl,
   and_congr (wave1_longer_than_wave2_iff w1 w3) (wave1_longer_than_wave2_iff w1 w5),
   and_congr (is_longer_some_iff r (1 / 10) w5 w3 (by norm_num))
     (is_shorter_some_iff r (9 / 10) w5 w3 (by norm_num)),
   is_longer_some_iff r (11 / 10) w3 w1 (by norm_num),
   is_longer_some_iff r (6 / 5) w5 w3 (by norm_num),
   and_congr (is_longer_none_iff r w5 w3) (is_longer_none_iff r w5 w1),
   is_longer_some_iff r (6 / 5) w3 w1 (by norm_num),
   is_longer_some_iff r (11 / 10) w5 w3 (by norm_num),
   is_shorter_none_iff r w3 w1,
   is_shorter_none_iff r w4 w2,
   is_shorter_some_iff r (9 / 10) w5 w3 (by norm_num)⟩

/-- C4 counterexample: with the default configured ratio 1.7, the
`Impulse3WaveLongest.w5_2` condition accepts waves (durations 5, 6, 1 and
spans 5, 1, 1) on which the wave3-vs-wave1 comparison at the configured
ratio fails — the condition actually compares at the `WaveTools` default
1.8, where the order of the two lengths flips. -/
theorem impulse3_w5_2_default_ratio_counterexample :
    impulse3_w5_2 waveRuleDefault_x_y_ratio ⟨5, (0, 5)⟩ ⟨6, (0, 1)⟩ ⟨1, (0, 1)⟩ ∧
    ¬ diagonal_longer waveRuleDefault_x_y_ratio 1 ⟨6, (0, 1)⟩ ⟨5, (0, 5)⟩ := by
  have hAB : calculate_diagonals_length ⟨6, (0, 1)⟩ ⟨5, (0, 5)⟩ (9 / 5) =
      some (Real.sqrt ((82 : ℝ) / 25), Real.sqrt ((13 : ℝ) / 4)) := by
    unfold calculate_diagonals_length
    norm_num
  have hAC : calculate_diagonals_length ⟨6, (0, 1)⟩ ⟨1, (0, 1)⟩ (9 / 5) =
      some (Real.sqrt ((106 : ℝ) / 25), Real.sqrt ((109 : ℝ) / 100)) := by
    unfold calculate_diagonals_length
    norm_num
  have hAB' : calculate_diagonals_length ⟨6, (0, 1)⟩ ⟨5, (0, 5)⟩ waveRuleDefault_x_y_ratio =
      some (Real.sqrt ((293 : ℝ) / 100), Real.sqrt ((433 : ℝ) / 144)) := by
    unfold calculate_diagonals_length waveRuleDefault_x_y_ratio
    norm_num
  constructor
  · constructor
    · show wave1_longer_than_wave2 ⟨6, (0, 1)⟩ ⟨5, (0, 5)⟩
      unfold wave1_longer_than_wave2
      rw [hAB]
      exact Real.sqrt_lt_sqrt (by norm_num) (by norm_num)
    · show wave1_longer_than_wave2 ⟨6, (0, 1)⟩ ⟨1, (0, 1)⟩
      unfold wave1_longer_than_wave2
      rw [hAC]
      exact Real.sqrt_lt_sqrt (by norm_num) (by norm_num)
  · rintro ⟨l1, l2, heq, hgt⟩
    rw [hAB'] at heq
    injection heq with heq
    rw [Prod.mk.injEq] at heq
    obtain ⟨e1, e2⟩ := heq
    rw [← e1, ← e2, Rat.cast_one, mul_one] at hgt
    have hle : Real.sqrt ((293 : ℝ) / 100) ≤ Real.sqrt ((433 : ℝ) / 144) :=
      Real.sqrt_le_sqrt (by norm_num)
    linarith

/-- `pairOK` is symmetric. -/
theorem pairOK_symm (th : ℚ) (p q : ZPoint) (h : pairOK th p q) : pairOK th q p := by
  rcases h with ⟨h1, h2, h3⟩ | ⟨h1, h2, h3⟩
  · exact Or.inr ⟨h2, h1, h3⟩
  · exact Or.inl ⟨h2, h1, h3⟩

/-- Shrinking a positive denominator preserves the threshold bound. -/
theorem ratio_mono_den (a b c th : ℚ) (ha : 0 ≤ a) (hb : 0 < b) (hbc : b ≤ c)
    (h : th ≤ a / c - 1) : th ≤ a / b - 1 := by
  have hc : (0 : ℚ) < c := lt_of_lt_of_le hb hbc
  have : a / c ≤ a / b := by gcongr
  linarith

/-- Growing the numerator preserves the threshold bound. -/
theorem ratio_mono_num (a b c th : ℚ) (hc : 0 < c) (hab : a ≤ b)
    (h : th ≤ a / c - 1) : th ≤ b / c - 1 := by
  have : a / c ≤ b / c := by gcongr
  linarith

/-- The `detect_zigzag` loop body preserves the invariant, provided all
lows and highs of the series are positive. -/
theorem zig_step_inv (lows highs : ℕ → ℚ) (th : ℚ) (i : ℕ)
    (hl : ∀ j, 0 < lows j) (hh : ∀ j, 0 < highs j)
    (s : ZState) (hs : ZInv lows highs th s) :
    ZInv lows highs th (zig_step lows highs th s i) := by
  obtain ⟨hchain, hpos, hup, hdown⟩ := hs
  unfold zig_step
  by_cases htrend : s.up_trend = true
  · rw [if_pos htrend]
    by_cases hrep : lows i ≤ lows s.last_pivot
    · rw [if_pos hrep]
      refine ⟨?_, ?_, fun _ => Or.inr rfl, fun h => by simp at h⟩
      · dsimp only
        cases hpts : s.points with
        | nil => exact List.chain'_singleton _
        | cons p rest =>
          dsimp only [List.tail_cons]
          have hp' : p = ⟨s.last_pivot, lows s.last_pivot, false⟩ := by
            rcases hup htrend with hnil | hhead
            · rw [hpts] at hnil
              cases hnil
            · rw [hpts] at hhead
              simpa using hhead
          rw [hpts] at hchain
          obtain ⟨hhd, htl⟩ := List.chain'_cons'.mp hchain
          refine List.chain'_cons'.mpr ⟨?_, htl⟩
          intro q hq
          rcases hhd q hq with ⟨h1, -, -⟩ | ⟨-, h2, h3⟩
          · rw [hp'] at h1
            simp at h1
          · refine Or.inr ⟨rfl, h2, ?_⟩
            rw [hp'] at h3
            have hq0 : 0 ≤ q.price := by
              refine le_of_lt (hpos q ?_)
              rw [hpts]
              exact List.mem_cons_of_mem p (List.mem_of_mem_head? hq)
            exact ratio_mono_den q.price (lows i) (lows s.last_pivot) th hq0 (hl i) hrep h3
      · intro q hq
        dsimp only at hq
        rcases List.mem_cons.mp hq with hq | hq
        · rw [hq]
          exact hl i
        · exact hpos q (List.mem_of_mem_tail hq)
    · rw [if_neg hrep]
      by_cases hcom : th ≤ highs i / lows s.last_pivot - 1
      · rw [if_pos hcom]
        refine ⟨?_, ?_, fun h => by simp at h, fun _ => rfl⟩
        · dsimp only
          refine List.chain'_cons'.mpr ⟨?_, hchain⟩
          intro q hq
          have hhead : s.points.head? = some ⟨s.last_pivot, lows s.last_pivot, false⟩ := by
            rcases hup htrend with hnil | hhead
            · rw [hnil] at hq
              simp at hq
            · exact hhead
          have hq' : q = ⟨s.last_pivot, lows s.last_pivot, false⟩ := by
            have : some q = some (⟨s.last_pivot, lows s.last_pivot, false⟩ : ZPoint) := by
              rw [← hq, ← hhead]
            exact Option.some.inj this
          refine Or.inl ⟨rfl, ?_, ?_⟩
          · rw [hq']
          · rw [hq']
            exact hcom
        · intro q hq
          dsimp only at hq
          rcases List.mem_cons.mp hq with hq | hq
          · rw [hq]
            exact hh i
          · exact hpos q hq
      · rw [if_neg hcom]
        exact ⟨hchain, hpos, hup, hdown⟩
  · rw [if_neg htrend]
    have htrend' : s.up_trend = false := by
      cases h : s.up_trend
      · rfl
      · exact absurd h htrend
    have hhead := hdown htrend'
    by_cases hrep : highs s.last_pivot ≤ highs i
    · rw [if_pos hrep]
      refine ⟨?_, ?_, fun h => by simp at h, fun _ => rfl⟩
      · dsimp only
        cases hpts : s.points with
        | nil =>
          rw [hpts] at hhead
          simp at hhead
        | cons p rest =>
          dsimp only [List.tail_cons]
          have hp' : p = ⟨s.last_pivot, highs s.last_pivot, true⟩ := by
            rw [hpts] at hhead
            simpa using hhead
          rw [hpts] at hchain
          obtain ⟨hhd, htl⟩ := List.chain'_cons'.mp hchain
          refine List.chain'_cons'.mpr ⟨?_, htl⟩
          intro q hq
          rcases hhd q hq with ⟨-, h2, h3⟩ | ⟨h1, -, -⟩
          · refine Or.inl ⟨rfl, h2, ?_⟩
            rw [hp'] at h3
            have hq0 : 0 < q.price := by
              refine hpos q ?_
              rw [hpts]
              exact List.mem_cons_of_mem p (List.mem_of_mem_head? hq)
            exact ratio_mono_num (highs s.last_pivot) (highs i) q.price th hq0 hrep h3
          · rw [hp'] at h1
            simp at h1
      · intro q hq
        dsimp only at hq
        rcases List.mem_cons.mp hq with hq | hq
        · rw [hq]
          exact hh i
        · exact hpos q (List.mem_of_mem_tail hq)
    · rw [if_neg hrep]
      by_cases hcom : th ≤ highs s.last_pivot / lows i - 1
      · rw [if_pos hcom]
        refine ⟨?_, ?_, fun _ => Or.inr rfl, fun h => by simp at h⟩
        · dsimp only
          refine List.chain'_cons'.mpr ⟨?_, hchain⟩
          intro q hq
          have hq' : q = ⟨s.last_pivot, highs s.last_pivot, true⟩ := by
            have : some q = some (⟨s.last_pivot, highs s.last_pivot, true⟩ : ZPoint) := by
              rw [← hq, ← hhead]
            exact Option.some.inj this
          refine Or.inr ⟨rfl, ?_, ?_⟩
          · rw [hq']
          · rw [hq']
            exact hcom
        · intro q hq
          dsimp only at hq
          rcases List.mem_cons.mp hq with hq | hq
          · rw [hq]
            exact hl i
          · exact hpos q hq
      · rw [if_neg hcom]
        exact ⟨hchain, hpos, hup, hdown⟩

/-- The invariant is preserved by folding the loop body over any list of
bar indices. -/
theorem zig_fold_inv (lows highs : ℕ → ℚ) (th : ℚ)
    (hl : ∀ j, 0 < lows j) (hh : ∀ j, 0 < highs j) (l : List ℕ) (s : ZState)
    (hs : ZInv lows highs th s) :
    ZInv lows highs th (l.foldl (zig_step lows highs th) s) := by
  induction l generalizing s with
  | nil => exact hs
  | cons i l ih => exact ih _ (zig_step_inv lows highs th i hl hh s hs)

/-- The initial loop state satisfies the invariant. -/
theorem ZInv_init (lows highs : ℕ → ℚ) (th : ℚ) :
    ZInv lows highs th ⟨[], 0, true⟩ :=
  ⟨List.chain'_nil, by simp, fun _ => Or.inl rfl, fun h => by simp at h⟩

/-- C7 amended: for a series of positive lows and highs, consecutive
pivots returned by `detect_zigzag` alternate direction, and each adjacent
pair satisfies the threshold move with the high-side pivot in the
numerator: `high_price / low_price - 1 ≥ threshold`. -/
theorem detect_zigzag_alternation (lows highs : ℕ → ℚ) (n : ℕ) (th : ℚ)
    (hl : ∀ j, 0 < lows j) (hh : ∀ j, 0 < highs j) :
    List.Chain' (pairOK th) (detect_zigzag lows highs n th) := by
  unfold detect_zigzag
  rw [List.chain'_reverse]
  have hinv := zig_fold_inv lows highs th hl hh (List.range' 1 (n - 1)) ⟨[], 0, true⟩
    (ZInv_init lows highs th)
  exact List.Chain'.imp (fun a b hab => pairOK_symm th a b hab) hinv.1

/-- Closed instance of `detect_zigzag_alternation` on a concrete 4-bar
series with threshold 5%. -/
theorem detect_zigzag_alternation_witness :
    (∀ j, 0 < ([100, 95, 105, 99] : List ℚ).getD j 1) ∧
    (∀ j, 0 < ([100, 110, 110, 100] : List ℚ).getD j 1) ∧
    List.Chain' (pairOK (1 / 20))
      (detect_zigzag (fun i => ([100, 95, 105, 99] : List ℚ).getD i 1)
        (fun i => ([100, 110, 110, 100] : List ℚ).getD i 1) 4 (1 / 20)) := by
  have hl : ∀ j, 0 < ([100, 95, 105, 99] : List ℚ).getD j 1 := by
    intro j
    rcases j with _ | _ | _ | _ | j
    · decide
    · decide
    · decide
    · decide
    · rw [List.getD_eq_default _ _ (by simp)]
      norm_num
  have hh : ∀ j, 0 < ([100, 110, 110, 100] : List ℚ).getD j 1 := by
    intro j
    rcases j with _ | _ | _ | _ | j
    · decide
    · decide
    · decide
    · decide
    · rw [List.getD_eq_default _ _ (by simp)]
      norm_num
  exact ⟨hl, hh,
    detect_zigzag_alternation (fun i => ([100, 95, 105, 99] : List ℚ).getD i 1)
      (fun i => ([100, 110, 110, 100] : List ℚ).getD i 1) 4 (1 / 20) hl hh⟩

/-- C7 counterexample: on the series `lows = [100, 95, 105, 99]`,
`highs = [100, 110, 110, 100]` with threshold 5%, `detect_zigzag` commits
the pivots `(1, 95) (2, 110) (3, 99)`; between the last two (a down-state
commit) the claim's metric — committing extreme over opposite pivot —
gives `99/110 - 1 < 0 < threshold`, so the claim's adjacency property
fails on the returned list (the code tests `110/99 - 1` instead). -/
theorem detect_zigzag_claimed_ratio_counterexample :
    detect_zigzag (fun i => ([100, 95, 105, 99] : List ℚ).getD i 1)
        (fun i => ([100, 110, 110, 100] : List ℚ).getD i 1) 4 (1 / 20) =
      [⟨1, 95, false⟩, ⟨2, 110, true⟩, ⟨3, 99, false⟩] ∧
    ¬ List.Chain' (pairClaimed (1 / 20))
        [⟨1, 95, false⟩, ⟨2, 110, true⟩, ⟨3, 99, false⟩] := by
  constructor
  · unfold detect_zigzag zig_step
    norm_num [List.range', List.foldl, List.getD]
  · intro h
    have h23 := (List.chain'_cons.mp (List.chain'_cons.mp h).2).1
    have hth := h23.2
    norm_num at hth

end ElliottWave
